import Mathlib

/-!
Verification development for the used-car-dealer-finder pipeline (`src/app.py`).

The Python source is shallowly embedded: pure string functions become Lean
functions over `String`/`List Char`; the external collaborators (Google
geocoding/places, trafilatura, requests/BeautifulSoup, the OpenAI chat call,
`json.loads`) become explicit environment records, and Python exceptions become
`Except`/`Option` values.  Python text is modelled at the ASCII level: the
regex classes `\d` and `\s` additionally match some non-ASCII Unicode
characters in Python 3, which no claim here exercises, so the embedded
character classes are their ASCII restrictions.
-/

namespace DealerFinder

/-! ## Postal-code regular expressions (`verify_zipcode`, `extract_zipcode`) -/

/-- Python regex class `\s`, restricted to ASCII: space, tab, newline,
carriage return, vertical tab (0x0B) and form feed (0x0C). -/
def isPySpace (c : Char) : Bool :=
  c == ' ' || c == '\t' || c == '\n' || c == '\r' ||
    c == Char.ofNat 11 || c == Char.ofNat 12

/-- Character class `[,\s]` that `extract_zipcode`'s pattern requires
immediately before the five digits. -/
def delimBefore (c : Char) : Bool :=
  c == ',' || isPySpace c

/-- Character class `[,\s-]` that `extract_zipcode`'s pattern requires
immediately after the five digits. -/
def delimAfter (c : Char) : Bool :=
  c == ',' || isPySpace c || c == '-'

/-- Conjunction of the per-character tests for one window of the pattern
`[,\s](\d{5})[,\s-]` from `extract_zipcode` (src/app.py line 191). -/
def zipWindow (c0 c1 c2 c3 c4 c5 c6 : Char) : Bool :=
  delimBefore c0 && c1.isDigit && c2.isDigit && c3.isDigit && c4.isDigit &&
    c5.isDigit && delimAfter c6

/-- Attempt to match `[,\s](\d{5})[,\s-]` at the head of the character list,
returning the captured group `(\d{5})` on success. -/
def matchWindow : List Char → Option String
  | c0 :: c1 :: c2 :: c3 :: c4 :: c5 :: c6 :: _ =>
    if zipWindow c0 c1 c2 c3 c4 c5 c6 then some (String.mk [c1, c2, c3, c4, c5])
    else none
  | _ => none

/-- Semantics of `re.search(r'[,\s](\d{5})[,\s-]', address)`: try the pattern
at each start position from the left, returning the leftmost match's captured
group. -/
def searchZip : List Char → Option String
  | [] => none
  | c0 :: rest =>
    match matchWindow (c0 :: rest) with
    | some z => some z
    | none => searchZip rest

/-- Embedding of `extract_zipcode` (src/app.py lines 187-196): search the
formatted address for a five-digit run delimited on the left by `[,\s]` and on
the right by `[,\s-]`; `None` when the pattern does not occur. -/
def extract_zipcode (address : String) : Option String :=
  searchZip address.data

/-- Five consecutive characters all matching `\d` (ASCII restriction). -/
def fiveDigits (c1 c2 c3 c4 c5 : Char) : Bool :=
  c1.isDigit && c2.isDigit && c3.isDigit && c4.isDigit && c5.isDigit

/-- Embedding of `verify_zipcode` (src/app.py lines 44-46):
`bool(re.match(r'^\d{5}$', zipcode))`.  In Python, `$` (without `re.M`)
matches at the end of the string or just before a single newline at the end of
the string, so the pattern accepts exactly the strings of five digits and the
strings of five digits followed by one `'\n'`. -/
def verify_zipcode (zipcode : String) : Bool :=
  match zipcode.data with
  | [c1, c2, c3, c4, c5] => fiveDigits c1 c2 c3 c4 c5
  | [c1, c2, c3, c4, c5, c6] => fiveDigits c1 c2 c3 c4 c5 && c6 == '\n'
  | _ => false

/-! ## Soundness of the zip-extraction search -/

theorem matchWindow_sound {l : List Char} {z : String}
    (h : matchWindow l = some z) :
    ∃ (b : Char) (ds : List Char) (a : Char) (post : List Char),
      l = b :: (ds ++ a :: post) ∧ ds.length = 5 ∧
      (∀ c ∈ ds, c.isDigit = true) ∧
      delimBefore b = true ∧ delimAfter a = true ∧ z = String.mk ds := by
  match l with
  | [] => simp [matchWindow] at h
  | [c0] => simp [matchWindow] at h
  | [c0, c1] => simp [matchWindow] at h
  | [c0, c1, c2] => simp [matchWindow] at h
  | [c0, c1, c2, c3] => simp [matchWindow] at h
  | [c0, c1, c2, c3, c4] => simp [matchWindow] at h
  | [c0, c1, c2, c3, c4, c5] => simp [matchWindow] at h
  | c0 :: c1 :: c2 :: c3 :: c4 :: c5 :: c6 :: t =>
    by_cases hw : zipWindow c0 c1 c2 c3 c4 c5 c6 = true
    · refine ⟨c0, [c1, c2, c3, c4, c5], c6, t, by simp, by simp, ?_, ?_, ?_, ?_⟩
      · intro c hc
        simp only [zipWindow, Bool.and_eq_true] at hw
        simp only [List.mem_cons, List.not_mem_nil, or_false] at hc
        rcases hc with rfl | rfl | rfl | rfl | rfl
        · exact hw.1.1.1.1.1.2
        · exact hw.1.1.1.1.2
        · exact hw.1.1.1.2
        · exact hw.1.1.2
        · exact hw.1.2
      · simp only [zipWindow, Bool.and_eq_true] at hw
        exact hw.1.1.1.1.1.1
      · simp only [zipWindow, Bool.and_eq_true] at hw
        exact hw.2
      · simp only [matchWindow, hw, if_true, Option.some.injEq] at h
        exact h.symm
    · simp [matchWindow, hw] at h

theorem searchZip_sound {l : List Char} {z : String}
    (h : searchZip l = some z) :
    ∃ (pre : List Char) (b : Char) (ds : List Char) (a : Char) (post : List Char),
      l = pre ++ b :: (ds ++ a :: post) ∧ ds.length = 5 ∧
      (∀ c ∈ ds, c.isDigit = true) ∧
      delimBefore b = true ∧ delimAfter a = true ∧ z = String.mk ds := by
  induction l with
  | nil => simp [searchZip] at h
  | cons c0 rest ih =>
    rw [searchZip] at h
    cases hm : matchWindow (c0 :: rest) with
    | some z' =>
      rw [hm] at h
      obtain ⟨b, ds, a, post, hl, hlen, hdig, hb, ha, hz⟩ :=
        matchWindow_sound hm
      obtain rfl : z' = z := by injection h
      exact ⟨[], b, ds, a, post, by simpa using hl, hlen, hdig, hb, ha, hz⟩
    | none =>
      rw [hm] at h
      obtain ⟨pre, b, ds, a, post, hl, hlen, hdig, hb, ha, hz⟩ := ih h
      exact ⟨c0 :: pre, b, ds, a, post, by simp [hl], hlen, hdig, hb, ha, hz⟩

/-! ## Claims C1 and C2 -/

/-- C1 counterexample: the claim asserts that extracting from
`"123 Main St, Springfield, IL 62701"` yields `"62701"`, but the pattern
`[,\s](\d{5})[,\s-]` demands a delimiter character after the five digits, and
here the string ends immediately after `62701`, so `extract_zipcode` returns
`None`. -/
theorem c1_counterexample_zip_at_end_of_string :
    extract_zipcode "123 Main St, Springfield, IL 62701" = none := by rfl

/-- C1 (amended): whenever `extract_zipcode` returns a code, that code is a
five-digit run occurring in the address with a `[,\s]` character immediately
before it and a `[,\s-]` character immediately after it — never digits
embedded in a longer digit run and never a run at the very start or very end
of the string; a zip that is the final characters of the address is therefore
not extracted (`"123 Main St, Springfield, IL 62701"` yields `None`), while
`"123 Main St, Springfield, IL 62701, USA"` yields `"62701"` and an address
containing `"62701-1234 Unit 5"` yields `"62701"`, not a substring of the
suffix. -/
theorem c1_extract_zipcode_delimited_run :
    (∀ (address z : String), extract_zipcode address = some z →
      ∃ (pre : List Char) (b : Char) (ds : List Char) (a : Char) (post : List Char),
        address.data = pre ++ b :: (ds ++ a :: post) ∧ ds.length = 5 ∧
        (∀ c ∈ ds, c.isDigit = true) ∧
        delimBefore b = true ∧ delimAfter a = true ∧ z = String.mk ds) ∧
    extract_zipcode "123 Main St, Springfield, IL 62701" = none ∧
    extract_zipcode "123 Main St, Springfield, IL 62701, USA" = some "62701" ∧
    extract_zipcode "123 Main St, Springfield, IL 62701-1234 Unit 5, USA" =
      some "62701" :=
  ⟨fun _ _ h => searchZip_sound h, by rfl, by rfl, by rfl⟩

/-- C1 witness: the delimited-run decomposition, instantiated at the concrete
address `"123 Main St, Springfield, IL 62701, USA"`. -/
theorem c1_witness_delimited_run_concrete :
    ∃ (pre : List Char) (b : Char) (ds : List Char) (a : Char) (post : List Char),
      ("123 Main St, Springfield, IL 62701, USA" : String).data =
        pre ++ b :: (ds ++ a :: post) ∧ ds.length = 5 ∧
      (∀ c ∈ ds, c.isDigit = true) ∧
      delimBefore b = true ∧ delimAfter a = true ∧
      ("62701" : String) = String.mk ds :=
  c1_extract_zipcode_delimited_run.1
    "123 Main St, Springfield, IL 62701, USA" "62701" (by rfl)

/-- C2 counterexample: the claim asserts `verify_zipcode` is true only for
strings of exactly five digits, but Python's `$` also matches just before a
trailing newline, so `verify_zipcode "12345\n"` is true although the string
has a trailing non-digit character. -/
theorem c2_counterexample_trailing_newline :
    verify_zipcode "12345\n" = true ∧
      ¬(("12345\n" : String).data.length = 5 ∧
        ∀ c ∈ ("12345\n" : String).data, c.isDigit = true) := by
  refine ⟨by rfl, ?_⟩
  intro h
  simp at h

/-- C2 (amended): `verify_zipcode` returns true iff the input is exactly five
decimal digits, or exactly five decimal digits followed by a single trailing
newline (Python's `$` matches just before a final `'\n'`); there is no other
normalization. -/
theorem c2_verify_zipcode_iff (s : String) :
    verify_zipcode s = true ↔
      ((s.data.length = 5 ∧ ∀ c ∈ s.data, c.isDigit = true) ∨
       (s.data.length = 6 ∧ (∀ c ∈ s.data.take 5, c.isDigit = true) ∧
        s.data.getLast? = some '\n')) := by
  obtain ⟨l⟩ := s
  rcases l with _ | ⟨a, _ | ⟨b, _ | ⟨c, _ | ⟨d, _ | ⟨e, _ | ⟨f, _ | ⟨g, t⟩⟩⟩⟩⟩⟩⟩ <;>
    simp [verify_zipcode, fiveDigits, List.getLast?, and_assoc]

/-- C2 witness: the characterization applied at the concrete inputs
`"20136"` (five digits, accepted) and `"2013a"` (rejected). -/
theorem c2_witness_concrete :
    verify_zipcode "20136" = true ∧ verify_zipcode "2013a" = false :=
  ⟨(c2_verify_zipcode_iff "20136").mpr (Or.inl (by simp)), by rfl⟩

/-! ## Dealer search engine (`get_dealer_info`, `process_results`) -/

/-- Fields returned by `gmaps.place(place_id, fields=[...])['result']`;
each field is `Option` because the Python code reads them with `.get`. -/
structure PlaceDetails where
  name : Option String
  formatted_address : Option String
  formatted_phone_number : Option String
  website : Option String
deriving DecidableEq, Repr

/-- One entry of a places-nearby `results` list: its `place_id` together with
the outcome of the detail fetch `gmaps.place(...)` performed for it inside
`process_results` (`Except.error ()` models that call raising an exception,
which the per-place `try` at src/app.py lines 158-185 catches). -/
structure Hit where
  place_id : String
  detail : Except Unit PlaceDetails
deriving Repr

/-- Dealer record built at src/app.py lines 171-177.  `full_address` keeps the
raw `details.get('formatted_address')` (an `Option`), exactly as the Python
dict does. -/
structure Dealer where
  business_name : Option String
  full_address : Option String
  phone_number : Option String
  website : Option String
  place_id : String
deriving DecidableEq, Repr

/-- Dealer dict literal from src/app.py lines 171-177. -/
def mkDealer (place : Hit) (details : PlaceDetails) : Dealer :=
  { business_name := details.name
    full_address := details.formatted_address
    phone_number := details.formatted_phone_number
    website := details.website
    place_id := place.place_id }

/-- Embedding of `process_results` (src/app.py lines 155-185).  The Python
function mutates `dealers` in place; here the updated list is returned.  A
failing detail fetch is caught by the per-place `try` and the loop continues.
The zip comparison `address_zipcode == target_zipcode` compares an optional
string with a string, false when extraction returned `None`. -/
def process_results : List Hit → List Dealer → String → List Dealer
  | [], dealers, _ => dealers
  | place :: rest, dealers, target_zipcode =>
    match place.detail with
    | .error _ => process_results rest dealers target_zipcode
    | .ok details =>
      let address := details.formatted_address.getD ""
      let dealers' :=
        if extract_zipcode address = some target_zipcode then
          dealers ++ [mkDealer place details]
        else dealers
      process_results rest dealers' target_zipcode

/-- One response of `gmaps.places_nearby`: its `results` list and whether a
`next_page_token` is present; `fail` models the nearby-search request itself
raising, which nothing catches before the outer `try` of `get_dealer_info`. -/
inductive PageResp where
  | ok (results : List Hit) (hasNextPageToken : Bool)
  | fail
deriving Repr

/-- Pagination loop at src/app.py lines 137-144: while the previous response
carried a token, fetch the next response; a raising fetch aborts the whole
search (`none`); a returned page is processed (an empty `results` list leaves
the dealers unchanged, matching the `if places_result.get('results')` guard)
and the loop continues iff the new response carries a token.  An exhausted
response stream stands for a provider that stops returning data. -/
def runPagination (target : String) (dealers : List Dealer) :
    List PageResp → Option (List Dealer)
  | [] => some dealers
  | .fail :: _ => none
  | .ok hits hasNext :: rest =>
    let dealers' := process_results hits dealers target
    if hasNext then runPagination target dealers' rest else some dealers'

/-- One keyword query at src/app.py lines 123-144: the initial
`places_nearby` call followed, only when its `results` list is non-empty, by
processing and the pagination loop. -/
def runQuery (target : String) (dealers : List Dealer) :
    List PageResp → Option (List Dealer)
  | [] => some dealers
  | .fail :: _ => none
  | .ok hits hasNext :: rest =>
    match hits with
    | [] => some dealers
    | h :: hs =>
      let dealers' := process_results (h :: hs) dealers target
      if hasNext then runPagination target dealers' rest else some dealers'

/-- Loop over the fixed keyword list (src/app.py lines 123-144); a `none`
from any query propagates (the exception reaches the outer `try`). -/
def runQueries (target : String) (pages : String → List PageResp)
    (dealers : List Dealer) : List String → Option (List Dealer)
  | [] => some dealers
  | q :: qs =>
    match runQuery target dealers (pages q) with
    | none => none
    | some dealers' => runQueries target pages dealers' qs

/-- Geocoding hit; the pipeline only reads `geometry.location` and passes it
through opaquely, so the coordinates are modelled as integers. -/
structure GeoLocation where
  lat : Int
  lng : Int
deriving DecidableEq, Repr

/-- External provider behaviour consumed by one `get_dealer_info` run:
the geocode result list for the zipcode, and for each keyword the stream of
nearby-search page responses. -/
structure SearchEnv where
  geocode_result : List GeoLocation
  pages : String → List PageResp

/-- Fixed keyword list from src/app.py lines 113-119. -/
def search_queries : List String :=
  ["independent used car dealer", "used car dealer", "pre-owned car dealer",
   "used auto sales", "used vehicle dealer"]

/-- Python dict insertion: overwrite the value at an existing key in place,
otherwise append the binding. -/
def dictInsert (m : List (String × Dealer)) (k : String) (v : Dealer) :
    List (String × Dealer) :=
  match m with
  | [] => [(k, v)]
  | (k', v') :: rest =>
    if k' = k then (k', v) :: rest else (k', v') :: dictInsert rest k v

/-- The dict comprehension at src/app.py line 147:
`{dealer['place_id']: dealer for dealer in dealers}`. -/
def buildDict (dealers : List Dealer) : List (String × Dealer) :=
  dealers.foldl (fun m dealer => dictInsert m dealer.place_id dealer) []

/-- Lookup in the association-list model of a Python dict. -/
def lookupDict : List (String × Dealer) → String → Option Dealer
  | [], _ => none
  | (k, v) :: rest, k' => if k' = k then some v else lookupDict rest k'

/-- Line 147-149 of src/app.py: `.values()` of the deduplicating dict, in key
insertion order. -/
def unique_dealers (dealers : List Dealer) : List Dealer :=
  (buildDict dealers).map Prod.snd

/-- Embedding of `get_dealer_info` (src/app.py lines 99-153): empty geocode
result → `None`; otherwise run every keyword query, deduplicate by
`place_id`, and return the list; any uncaught provider exception inside the
loops yields `None` via the outer `try`. -/
def get_dealer_info (env : SearchEnv) (zipcode : String) :
    Option (List Dealer) :=
  match env.geocode_result with
  | [] => none
  | _ :: _ =>
    match runQueries zipcode env.pages [] search_queries with
    | none => none
    | some dealers => some (unique_dealers dealers)

/-! ## Invariants of the search loops -/

/-- The zip-filter predicate that `process_results` applies before keeping a
dealer, phrased on the stored record (`full_address.getD ""` is the same
string the filter inspected, since `address := details.get('formatted_address', '')`). -/
def dealerMatches (z : String) (d : Dealer) : Prop :=
  extract_zipcode (d.full_address.getD "") = some z

/-- Whether a hit would contribute a dealer: its detail fetch succeeds and
the zip extracted from its formatted address equals the target. -/
def hitMatches (z : String) (h : Hit) : Bool :=
  match h.detail with
  | .error _ => false
  | .ok details =>
    extract_zipcode (details.formatted_address.getD "") == some z

theorem process_results_mono {hits : List Hit} {dealers : List Dealer}
    {z : String} {d : Dealer} (hd : d ∈ dealers) :
    d ∈ process_results hits dealers z := by
  induction hits generalizing dealers with
  | nil => exact hd
  | cons h rest ih =>
    cases hdet : h.detail with
    | error e => simpa [process_results, hdet] using ih hd
    | ok details =>
      simp only [process_results, hdet]
      split
      · exact ih (List.mem_append_left _ hd)
      · exact ih hd

theorem mem_process_results {hits : List Hit} {dealers : List Dealer}
    {z : String} {d : Dealer} (hd : d ∈ process_results hits dealers z) :
    d ∈ dealers ∨ dealerMatches z d := by
  induction hits generalizing dealers with
  | nil => exact Or.inl hd
  | cons h rest ih =>
    cases hdet : h.detail with
    | error e =>
      rw [process_results, hdet] at hd
      exact ih hd
    | ok details =>
      rw [process_results, hdet] at hd
      simp only at hd
      split at hd
      · rcases ih hd with hmem | hmatch
        · rcases List.mem_append.mp hmem with hmem' | hnew
          · exact Or.inl hmem'
          · refine Or.inr ?_
            obtain rfl : d = mkDealer h details := by simpa using hnew
            simpa [dealerMatches, mkDealer] using ‹_›
        · exact Or.inr hmatch
      · exact ih hd

theorem process_results_no_match {hits : List Hit} {dealers : List Dealer}
    {z : String} (hno : ∀ h ∈ hits, hitMatches z h = false) :
    process_results hits dealers z = dealers := by
  induction hits generalizing dealers with
  | nil => rfl
  | cons h rest ih =>
    have hh := hno h (List.mem_cons_self _ _)
    have hrest : ∀ h' ∈ rest, hitMatches z h' = false :=
      fun h' hm => hno h' (List.mem_cons_of_mem _ hm)
    cases hdet : h.detail with
    | error e => simpa [process_results, hdet] using ih hrest
    | ok details =>
      rw [hitMatches, hdet] at hh
      rw [process_results, hdet]
      simp only [beq_eq_false_iff_ne, ne_eq] at hh
      simp only [hh, if_false]
      exact ih hrest

theorem mem_runPagination {resps : List PageResp} {dealers out : List Dealer}
    {z : String} (hrun : runPagination z dealers resps = some out)
    {d : Dealer} (hd : d ∈ out) : d ∈ dealers ∨ dealerMatches z d := by
  induction resps generalizing dealers with
  | nil =>
    obtain rfl : dealers = out := by simpa [runPagination] using hrun
    exact Or.inl hd
  | cons r rest ih =>
    cases r with
    | fail => simp [runPagination] at hrun
    | ok hits hasNext =>
      rw [runPagination] at hrun
      split at hrun
      · rcases ih hrun with hmem | hmatch
        · exact mem_process_results hmem
        · exact Or.inr hmatch
      · obtain rfl : process_results hits dealers z = out := by
          simpa using hrun
        exact mem_process_results hd

theorem mem_runQuery {resps : List PageResp} {dealers out : List Dealer}
    {z : String} (hrun : runQuery z dealers resps = some out)
    {d : Dealer} (hd : d ∈ out) : d ∈ dealers ∨ dealerMatches z d := by
  cases resps with
  | nil =>
    obtain rfl : dealers = out := by simpa [runQuery] using hrun
    exact Or.inl hd
  | cons r rest =>
    cases r with
    | fail => simp [runQuery] at hrun
    | ok hits hasNext =>
      cases hits with
      | nil =>
        obtain rfl : dealers = out := by simpa [runQuery] using hrun
        exact Or.inl hd
      | cons h hs =>
        rw [runQuery] at hrun
        split at hrun
        · rcases mem_runPagination hrun hd with hmem | hmatch
          · exact mem_process_results hmem
          · exact Or.inr hmatch
        · obtain rfl : process_results (h :: hs) dealers z = out := by
            simpa using hrun
          exact mem_process_results hd

theorem mem_runQueries {qs : List String} {pages : String → List PageResp}
    {dealers out : List Dealer} {z : String}
    (hrun : runQueries z pages dealers qs = some out)
    {d : Dealer} (hd : d ∈ out) : d ∈ dealers ∨ dealerMatches z d := by
  induction qs generalizing dealers with
  | nil =>
    obtain rfl : dealers = out := by simpa [runQueries] using hrun
    exact Or.inl hd
  | cons q rest ih =>
    rw [runQueries] at hrun
    cases hq : runQuery z dealers (pages q) with
    | none => rw [hq] at hrun; exact absurd hrun (by simp)
    | some dealers' =>
      rw [hq] at hrun
      rcases ih hrun with hmem | hmatch
      · exact mem_runQuery hq hmem
      · exact Or.inr hmatch

theorem runQueries_append {qs1 qs2 : List String}
    {pages : String → List PageResp} {dealers : List Dealer} {z : String} :
    runQueries z pages dealers (qs1 ++ qs2) =
      match runQueries z pages dealers qs1 with
      | none => none
      | some dealers' => runQueries z pages dealers' qs2 := by
  induction qs1 generalizing dealers with
  | nil => simp [runQueries]
  | cons q rest ih =>
    rw [List.cons_append, runQueries, runQueries]
    cases runQuery z dealers (pages q) with
    | none => rfl
    | some dealers' => exact ih

/-! ## Invariants of the deduplicating dict -/

theorem mem_dictInsert {m : List (String × Dealer)} {k : String} {v : Dealer}
    {p : String × Dealer} (hp : p ∈ dictInsert m k v) :
    p ∈ m ∨ p = (k, v) := by
  induction m with
  | nil => simpa [dictInsert] using hp
  | cons q rest ih =>
    obtain ⟨k', v'⟩ := q
    rw [dictInsert] at hp
    split at hp
    · rcases List.mem_cons.mp hp with rfl | hrest
      · subst ‹k' = k›
        exact Or.inr rfl
      · exact Or.inl (List.mem_cons_of_mem _ hrest)
    · rcases List.mem_cons.mp hp with rfl | hrest
      · exact Or.inl (List.mem_cons_self _ _)
      · rcases ih hrest with hm | hv
        · exact Or.inl (List.mem_cons_of_mem _ hm)
        · exact Or.inr hv

theorem dictInsert_map_fst (m : List (String × Dealer)) (k : String)
    (v : Dealer) :
    (dictInsert m k v).map Prod.fst =
      if k ∈ m.map Prod.fst then m.map Prod.fst
      else m.map Prod.fst ++ [k] := by
  induction m with
  | nil => simp [dictInsert]
  | cons q rest ih =>
    obtain ⟨k', v'⟩ := q
    by_cases hk : k' = k
    · subst hk
      simp [dictInsert]
    · rw [dictInsert, if_neg hk]
      by_cases hmem : k ∈ rest.map Prod.fst
      · simp [ih, hmem, Ne.symm hk]
      · simp [ih, hmem, Ne.symm hk]

theorem nodup_keys_dictInsert {m : List (String × Dealer)} {k : String}
    {v : Dealer} (h : (m.map Prod.fst).Nodup) :
    ((dictInsert m k v).map Prod.fst).Nodup := by
  rw [dictInsert_map_fst]
  split
  · exact h
  · simp only [List.nodup_append, List.nodup_cons, List.nodup_nil]
    exact ⟨h, by simp, by simpa using fun hk => ‹¬k ∈ m.map Prod.fst› hk⟩

theorem lookupDict_dictInsert (m : List (String × Dealer)) (k : String)
    (v : Dealer) (k' : String) :
    lookupDict (dictInsert m k v) k' =
      if k' = k then some v else lookupDict m k' := by
  induction m with
  | nil => simp [dictInsert, lookupDict]
  | cons q rest ih =>
    obtain ⟨k0, v0⟩ := q
    by_cases hk : k0 = k
    · subst hk
      rw [dictInsert, if_pos rfl]
      by_cases hk' : k' = k0 <;> simp [lookupDict, hk']
    · rw [dictInsert, if_neg hk]
      by_cases hk' : k' = k0
      · subst hk'
        simp [lookupDict, hk]
      · simp [lookupDict, hk', ih]

theorem mem_foldl_dictInsert {l : List Dealer} {m : List (String × Dealer)}
    {p : String × Dealer}
    (hp : p ∈ l.foldl (fun m d => dictInsert m d.place_id d) m) :
    p ∈ m ∨ ∃ d ∈ l, p = (d.place_id, d) := by
  induction l generalizing m with
  | nil => exact Or.inl hp
  | cons d0 rest ih =>
    rw [List.foldl_cons] at hp
    rcases ih hp with hm | ⟨d, hd, rfl⟩
    · rcases mem_dictInsert hm with hm' | rfl
      · exact Or.inl hm'
      · exact Or.inr ⟨d0, List.mem_cons_self _ _, rfl⟩
    · exact Or.inr ⟨d, List.mem_cons_of_mem _ hd, rfl⟩

theorem mem_buildDict {l : List Dealer} {p : String × Dealer}
    (hp : p ∈ buildDict l) : ∃ d ∈ l, p = (d.place_id, d) := by
  rcases mem_foldl_dictInsert hp with hm | hex
  · simp at hm
  · exact hex

theorem nodup_keys_buildDict (l : List Dealer) :
    ((buildDict l).map Prod.fst).Nodup := by
  have general : ∀ (l' : List Dealer) (m : List (String × Dealer)),
      (m.map Prod.fst).Nodup →
      (((l'.foldl (fun m d => dictInsert m d.place_id d) m).map
        Prod.fst)).Nodup := by
    intro l'
    induction l' with
    | nil => exact fun m hm => hm
    | cons d0 rest ih =>
      intro m hm
      rw [List.foldl_cons]
      exact ih _ (nodup_keys_dictInsert hm)
  simpa using general l [] (by simp)

theorem buildDict_append_singleton (l : List Dealer) (d : Dealer) :
    buildDict (l ++ [d]) = dictInsert (buildDict l) d.place_id d := by
  simp [buildDict, List.foldl_append]

theorem lookupDict_buildDict (l : List Dealer) (k : String) :
    lookupDict (buildDict l) k =
      (l.filter (fun d => d.place_id == k)).getLast? := by
  induction l using List.reverseRecOn with
  | nil => simp [buildDict, lookupDict]
  | append_singleton l d ih =>
    rw [buildDict_append_singleton, lookupDict_dictInsert,
      List.filter_append]
    by_cases hk : k = d.place_id
    · subst hk
      simp [List.getLast?_concat]
    · have hne : (d.place_id == k) = false := by
        simpa [beq_eq_false_iff_ne] using fun h : d.place_id = k => hk h.symm
      have hfilter : (List.filter (fun d' => d'.place_id == k) [d]) = [] := by
        simp [List.filter, hne]
      simp [hfilter, hk, ih]

theorem lookupDict_eq_some_of_mem {m : List (String × Dealer)} {k : String}
    {v : Dealer} (hnd : (m.map Prod.fst).Nodup) (hm : (k, v) ∈ m) :
    lookupDict m k = some v := by
  induction m with
  | nil => simp at hm
  | cons q rest ih =>
    obtain ⟨k0, v0⟩ := q
    simp only [List.map_cons, List.nodup_cons] at hnd
    rcases List.mem_cons.mp hm with heq | hrest
    · injection heq with h1 h2
      subst h1
      subst h2
      simp [lookupDict]
    · have hk : k ≠ k0 := by
        rintro rfl
        exact hnd.1 (by simpa using List.mem_map_of_mem Prod.fst hrest)
      simp [lookupDict, hk, ih hnd.2 hrest]

theorem mem_of_lookupDict_eq_some {m : List (String × Dealer)} {k : String}
    {v : Dealer} (h : lookupDict m k = some v) : (k, v) ∈ m := by
  induction m with
  | nil => simp [lookupDict] at h
  | cons q rest ih =>
    obtain ⟨k0, v0⟩ := q
    rw [lookupDict] at h
    split at h
    · obtain rfl : v0 = v := by injection h
      subst ‹k = k0›
      exact List.mem_cons_self _ _
    · exact List.mem_cons_of_mem _ (ih h)

theorem unique_dealers_map_place_id (l : List Dealer) :
    (unique_dealers l).map Dealer.place_id = (buildDict l).map Prod.fst := by
  rw [unique_dealers, List.map_map]
  refine List.map_congr_left ?_
  intro p hp
  obtain ⟨d, _, rfl⟩ := mem_buildDict hp
  rfl

/-! ## Searches in which nothing matches the target zip -/

/-- A page response that is an ordinary page (no raised exception) none of
whose hits passes the zip filter. -/
def okNoMatch (z : String) (r : PageResp) : Prop :=
  ∃ hits b, r = PageResp.ok hits b ∧ ∀ h ∈ hits, hitMatches z h = false

theorem runPagination_no_match {z : String} {dealers : List Dealer}
    {resps : List PageResp} (hok : ∀ r ∈ resps, okNoMatch z r) :
    runPagination z dealers resps = some dealers := by
  induction resps with
  | nil => rfl
  | cons r rest ih =>
    obtain ⟨hits, b, rfl, hno⟩ := hok _ (List.mem_cons_self _ _)
    simp only [runPagination, process_results_no_match hno]
    cases b
    · simp
    · simpa using ih (fun r' hr => hok r' (List.mem_cons_of_mem _ hr))

theorem runQuery_no_match {z : String} {dealers : List Dealer}
    {resps : List PageResp} (hok : ∀ r ∈ resps, okNoMatch z r) :
    runQuery z dealers resps = some dealers := by
  cases resps with
  | nil => rfl
  | cons r rest =>
    obtain ⟨hits, b, rfl, hno⟩ := hok _ (List.mem_cons_self _ _)
    cases hits with
    | nil => rfl
    | cons h hs =>
      simp only [runQuery, process_results_no_match hno]
      cases b
      · simp
      · simpa using runPagination_no_match
          (fun r' hr => hok r' (List.mem_cons_of_mem _ hr))

theorem runQueries_no_match {z : String} {pages : String → List PageResp}
    {dealers : List Dealer} {qs : List String}
    (hok : ∀ q ∈ qs, ∀ r ∈ pages q, okNoMatch z r) :
    runQueries z pages dealers qs = some dealers := by
  induction qs with
  | nil => rfl
  | cons q rest ih =>
    rw [runQueries, runQuery_no_match (hok _ (List.mem_cons_self _ _))]
    exact ih (fun q' hq => hok q' (List.mem_cons_of_mem _ hq))

/-! ## Claims C5 and C6 -/

/-- C5: when geocoding resolves to an empty result list, `get_dealer_info`
returns the failure value `None` — no dealer list is produced and the whole
search is aborted. -/
theorem c5_geocode_empty_is_fatal (env : SearchEnv) (z : String)
    (h : env.geocode_result = []) : get_dealer_info env z = none := by
  simp [get_dealer_info, h]

/-- Environment whose geocoding yields no match. -/
def envC5 : SearchEnv := { geocode_result := [], pages := fun _ => [] }

/-- C5 witness: the location-not-found failure at a concrete environment. -/
theorem c5_witness_concrete : get_dealer_info envC5 "20136" = none :=
  c5_geocode_empty_is_fatal envC5 "20136" rfl

/-- C6: when geocoding succeeds and every page of every keyword query is an
ordinary response none of whose hits passes the zip filter, the search
returns `some []` — the empty dealer list as a success value, which is a
different value from the failure result `none`. -/
theorem c6_empty_dealer_set_is_success (env : SearchEnv) (z : String)
    (hgeo : env.geocode_result ≠ [])
    (hok : ∀ q ∈ search_queries, ∀ r ∈ env.pages q, okNoMatch z r) :
    get_dealer_info env z = some [] := by
  cases hg : env.geocode_result with
  | nil => exact absurd hg hgeo
  | cons g gs =>
    have hq : runQueries z env.pages [] search_queries = some [] :=
      runQueries_no_match hok
    simp [get_dealer_info, hg, hq, unique_dealers, buildDict]

/-- Environment in which every query returns one page with one hit whose
address zip (`20135`) differs from the target. -/
def envC6 : SearchEnv :=
  { geocode_result := [⟨39, -78⟩]
    pages := fun _ =>
      [PageResp.ok
        [Hit.mk "pB" (.ok ⟨some "B Motors",
          some "11 Main St, Berryville, VA 20135, USA", none, none⟩)] false] }

/-- C6 witness: the empty-but-successful search at a concrete environment. -/
theorem c6_witness_concrete : get_dealer_info envC6 "20136" = some [] :=
  c6_empty_dealer_set_is_success envC6 "20136" (by simp [envC6])
    (by
      intro q hq r hr
      simp only [envC6, List.mem_singleton] at hr
      subst hr
      refine ⟨_, _, rfl, ?_⟩
      intro h hh
      simp only [List.mem_singleton] at hh
      subst hh
      rfl)

/-! ## Unfolding helpers and concrete environments -/

/-- Effect of one loop iteration of `process_results` on the dealers list. -/
def stepDealer (place : Hit) (dealers : List Dealer) (target : String) :
    List Dealer :=
  match place.detail with
  | .error _ => dealers
  | .ok details =>
    if extract_zipcode (details.formatted_address.getD "") = some target then
      dealers ++ [mkDealer place details]
    else dealers

theorem process_results_cons (place : Hit) (rest : List Hit)
    (dealers : List Dealer) (target : String) :
    process_results (place :: rest) dealers target =
      process_results rest (stepDealer place dealers target) target := by
  cases hd : place.detail <;> simp [process_results, stepDealer, hd]

theorem get_dealer_info_eq_some {env : SearchEnv} {z : String}
    {out : List Dealer} (h : get_dealer_info env z = some out) :
    ∃ raw, runQueries z env.pages [] search_queries = some raw ∧
      out = unique_dealers raw := by
  unfold get_dealer_info at h
  cases hgeo : env.geocode_result with
  | nil =>
    rw [hgeo] at h
    have h' : (none : Option (List Dealer)) = some out := h
    exact Option.noConfusion h'
  | cons g gs =>
    rw [hgeo] at h
    cases hraw : runQueries z env.pages [] search_queries with
    | none =>
      rw [hraw] at h
      have h' : (none : Option (List Dealer)) = some out := h
      exact Option.noConfusion h'
    | some raw =>
      rw [hraw] at h
      have h' : some (unique_dealers raw) = some out := h
      injection h' with h''
      exact ⟨raw, rfl, h''.symm⟩

theorem runQueries_append_some {qs1 qs2 : List String}
    {pages : String → List PageResp} {dealers dealers' : List Dealer}
    {z : String} (h : runQueries z pages dealers qs1 = some dealers') :
    runQueries z pages dealers (qs1 ++ qs2) =
      runQueries z pages dealers' qs2 := by
  rw [runQueries_append, h]

/-- Address whose extracted zip is `20136`. -/
def addrBristow : String := "10 Main St, Bristow, VA 20136, USA"

/-- Address whose extracted zip is `20135`. -/
def addrBerryville : String := "11 Main St, Berryville, VA 20135, USA"

/-- Dealer record the pipeline builds from the `addrBristow` hit. -/
def dealerA : Dealer :=
  ⟨some "A Motors", some addrBristow, none, none, "pA"⟩

/-- Environment for C3: one query returns a hit in the target zip `20136`
and a hit in the neighbouring zip `20135`. -/
def envC3 : SearchEnv :=
  { geocode_result := [⟨39, -77⟩]
    pages := fun q =>
      if q = "independent used car dealer" then
        [PageResp.ok
          [Hit.mk "pA" (.ok ⟨some "A Motors", some addrBristow, none, none⟩),
           Hit.mk "pB" (.ok ⟨some "B Motors", some addrBerryville, none, none⟩)]
          false]
      else [] }

/-! ## Claims C3 and C4 -/

/-- C3: every dealer in a successfully returned dealer list has an extracted
postal code equal to the target (`dealerMatches`), and with target `20136`
and candidates whose addresses carry zips `20136` and `20135`, only the
first is retained. -/
theorem c3_zip_filter_retains_only_target :
    (∀ (env : SearchEnv) (z : String) (out : List Dealer),
      get_dealer_info env z = some out → ∀ d ∈ out, dealerMatches z d) ∧
    get_dealer_info envC3 "20136" = some [dealerA] := by
  constructor
  · intro env z out h1 d hd
    obtain ⟨raw, hraw, rfl⟩ := get_dealer_info_eq_some h1
    simp only [unique_dealers] at hd
    obtain ⟨p, hp, hsnd⟩ := List.mem_map.mp hd
    obtain ⟨d', hd', rfl⟩ := mem_buildDict hp
    obtain rfl : d' = d := hsnd
    rcases mem_runQueries hraw hd' with hmem | hmatch
    · exact absurd hmem (List.not_mem_nil _)
    · exact hmatch
  · rfl

/-- C3 witness: the filter invariant applied at the concrete environment. -/
theorem c3_witness_concrete : dealerMatches "20136" dealerA :=
  c3_zip_filter_retains_only_target.1 envC3 "20136" [dealerA] rfl dealerA
    (by simp)

/-- C4: for every successful search, the returned list has pairwise-distinct
`place_id`s; each returned dealer is the last dealer with its `place_id` in
discovery order (last write wins); and every discovered `place_id` is
represented in the output. -/
theorem c4_dedup_last_write_wins :
    ∀ (env : SearchEnv) (z : String) (out raw : List Dealer),
      get_dealer_info env z = some out →
      runQueries z env.pages [] search_queries = some raw →
      ((out.map Dealer.place_id).Nodup ∧
        (∀ d ∈ out,
          (raw.filter (fun x => x.place_id == d.place_id)).getLast? =
            some d) ∧
        (∀ d ∈ raw, d.place_id ∈ out.map Dealer.place_id)) := by
  intro env z out raw h1 h2
  obtain ⟨raw', hraw', rfl⟩ := get_dealer_info_eq_some h1
  have hrr : raw' = raw := by
    rw [hraw'] at h2
    injection h2
  subst raw'
  refine ⟨?_, ?_, ?_⟩
  · rw [unique_dealers_map_place_id]
    exact nodup_keys_buildDict raw
  · intro d hd
    simp only [unique_dealers] at hd
    obtain ⟨p, hp, hsnd⟩ := List.mem_map.mp hd
    obtain ⟨d', hd', rfl⟩ := mem_buildDict hp
    have hdd : d' = d := hsnd
    subst d'
    have hlk : lookupDict (buildDict raw) d.place_id = some d :=
      lookupDict_eq_some_of_mem (nodup_keys_buildDict raw) hp
    rw [lookupDict_buildDict] at hlk
    exact hlk
  · intro d hd
    have hmemf : d ∈ raw.filter (fun x => x.place_id == d.place_id) :=
      List.mem_filter.mpr ⟨hd, by simp⟩
    have hne : raw.filter (fun x => x.place_id == d.place_id) ≠ [] :=
      List.ne_nil_of_mem hmemf
    obtain ⟨v, hv⟩ :=
      Option.isSome_iff_exists.mp (List.getLast?_isSome.mpr hne)
    have hlk : lookupDict (buildDict raw) d.place_id = some v := by
      rw [lookupDict_buildDict]
      exact hv
    rw [unique_dealers_map_place_id]
    exact List.mem_map_of_mem Prod.fst (mem_of_lookupDict_eq_some hlk)

/-- Dealer record from the earlier discovery event for `place_id` `pA`. -/
def dealerC4old : Dealer :=
  ⟨some "A Motors", some addrBristow, none, none, "pA"⟩

/-- Dealer record from the later discovery event for the same `place_id`,
with a different field value. -/
def dealerC4new : Dealer :=
  ⟨some "A Motors Renamed", some addrBristow, none, none, "pA"⟩

/-- Environment for the C4 witness: two keyword queries discover the same
`place_id` with different names. -/
def envC4 : SearchEnv :=
  { geocode_result := [⟨39, -77⟩]
    pages := fun q =>
      if q = "used car dealer" then
        [PageResp.ok
          [Hit.mk "pA" (.ok ⟨some "A Motors", some addrBristow, none, none⟩)]
          false]
      else if q = "used auto sales" then
        [PageResp.ok
          [Hit.mk "pA"
            (.ok ⟨some "A Motors Renamed", some addrBristow, none, none⟩)]
          false]
      else [] }

/-- C4 witness: two discovery events for `pA`, the output holds exactly one
entry for it, carrying the later event's fields. -/
theorem c4_witness_concrete :
    get_dealer_info envC4 "20136" = some [dealerC4new] ∧
    (([dealerC4new].map Dealer.place_id).Nodup ∧
      ([dealerC4old, dealerC4new].filter
        (fun x => x.place_id == dealerC4new.place_id)).getLast? =
        some dealerC4new) := by
  have happ := c4_dedup_last_write_wins envC4 "20136"
    [dealerC4new] [dealerC4old, dealerC4new] (by rfl) (by rfl)
  exact ⟨by rfl, happ.1, happ.2.1 dealerC4new (by simp)⟩

/-! ## Claims C7 and C10 -/

/-- C7: a hit whose detail fetch raises is skipped and changes nothing —
removing it from the hit list leaves `process_results` unchanged, so every
other candidate that passes the zip filter is still produced; and every hit
whose detail fetch succeeds and whose extracted zip equals the target
contributes its dealer record to the result. -/
theorem c7_detail_fetch_failure_isolated :
    (∀ (pre post : List Hit) (dealers : List Dealer) (z : String)
      (place : Hit), place.detail = Except.error () →
      process_results (pre ++ place :: post) dealers z =
        process_results (pre ++ post) dealers z) ∧
    (∀ (hits : List Hit) (dealers : List Dealer) (z : String) (place : Hit)
      (details : PlaceDetails), place ∈ hits →
      place.detail = Except.ok details →
      extract_zipcode (details.formatted_address.getD "") = some z →
      mkDealer place details ∈ process_results hits dealers z) := by
  constructor
  · intro pre post dealers z place he
    induction pre generalizing dealers with
    | nil =>
      simp only [List.nil_append]
      rw [process_results_cons]
      simp [stepDealer, he]
    | cons p pre' ih =>
      rw [List.cons_append, List.cons_append, process_results_cons,
        process_results_cons]
      exact ih _
  · intro hits dealers z place details hmem hdet hzip
    induction hits generalizing dealers with
    | nil => exact absurd hmem (List.not_mem_nil _)
    | cons h0 rest ih =>
      rw [process_results_cons]
      rcases List.mem_cons.mp hmem with rfl | hmem'
      · have hstep : stepDealer place dealers z =
            dealers ++ [mkDealer place details] := by
          simp [stepDealer, hdet, hzip]
        rw [hstep]
        exact process_results_mono (by simp)
      · exact ih _ hmem'

/-- Hit whose detail fetch raises a provider error. -/
def hitBadDetail : Hit := Hit.mk "pX" (Except.error ())

/-- Hit for dealer `pA` in the target zip. -/
def hitA : Hit :=
  Hit.mk "pA" (.ok ⟨some "A Motors", some addrBristow, none, none⟩)

/-- Hit for dealer `pC` in the target zip. -/
def hitC : Hit :=
  Hit.mk "pC" (.ok ⟨some "C Motors", some addrBristow, none, none⟩)

/-- C7 witness: dropping the failing middle hit leaves the processed dealer
list unchanged, and the matching hit after the failure still contributes. -/
theorem c7_witness_concrete :
    process_results [hitA, hitBadDetail, hitC] [] "20136" =
      process_results [hitA, hitC] [] "20136" ∧
    mkDealer hitC ⟨some "C Motors", some addrBristow, none, none⟩ ∈
      process_results [hitA, hitBadDetail, hitC] [] "20136" :=
  ⟨c7_detail_fetch_failure_isolated.1 [hitA] [hitC] [] "20136" hitBadDetail
    rfl,
   c7_detail_fetch_failure_isolated.2 [hitA, hitBadDetail, hitC] [] "20136"
    hitC ⟨some "C Motors", some addrBristow, none, none⟩ (by simp) rfl
    (by rfl)⟩

/-- C10: a provider error raised by the nearby-search request itself — on
the first call of a query or on a pagination call — is not caught locally:
the query evaluates to the failure value, and the whole search then returns
`None`, discarding every dealer accumulated by earlier keyword queries. -/
theorem c10_nearby_search_failure_is_fatal :
    (∀ (z : String) (dealers : List Dealer) (rest : List PageResp),
      runQuery z dealers (PageResp.fail :: rest) = none) ∧
    (∀ (z : String) (dealers : List Dealer) (h : Hit) (hs : List Hit)
      (rest : List PageResp),
      runQuery z dealers
        (PageResp.ok (h :: hs) true :: PageResp.fail :: rest) = none) ∧
    (∀ (env : SearchEnv) (z : String) (qs1 : List String) (q : String)
      (qs2 : List String) (dealers : List Dealer),
      search_queries = qs1 ++ q :: qs2 →
      runQueries z env.pages [] qs1 = some dealers →
      runQuery z dealers (env.pages q) = none →
      get_dealer_info env z = none) := by
  refine ⟨fun z dealers rest => rfl, fun z dealers h hs rest => ?_, ?_⟩
  · simp [runQuery, runPagination]
  · intro env z qs1 q qs2 dealers hsq hpre hfail
    have hnone : runQueries z env.pages [] search_queries = none := by
      rw [hsq, runQueries_append_some hpre]
      simp [runQueries, hfail]
    cases hg : env.geocode_result with
    | nil => simp [get_dealer_info, hg]
    | cons g gs => simp [get_dealer_info, hg, hnone]

/-- Environment for the C10 witness: the first keyword query succeeds and
accumulates a dealer, the second query's nearby-search call raises. -/
def envC10 : SearchEnv :=
  { geocode_result := [⟨39, -77⟩]
    pages := fun q =>
      if q = "independent used car dealer" then [PageResp.ok [hitA] false]
      else if q = "used car dealer" then [PageResp.fail]
      else [] }

/-- C10 witness: the dealer from the first query is discarded when the
second query's request fails; the search result is `None`. -/
theorem c10_witness_concrete : get_dealer_info envC10 "20136" = none :=
  c10_nearby_search_failure_is_fatal.2.2 envC10 "20136"
    ["independent used car dealer"] "used car dealer"
    ["pre-owned car dealer", "used auto sales", "used vehicle dealer"]
    [dealerA] rfl rfl rfl

/-! ## Website content extraction and analysis (`extract_website_info`) -/

/-- Parsed HTML document tree, as BeautifulSoup presents it to the fallback
extraction path. -/
inductive HtmlNode where
  | element (tag : String) (children : List HtmlNode)
  | text (s : String)
deriving Repr

/-- Effect of `for script in soup(["script", "style"]): script.decompose()`:
remove every `script`/`style` element (with its whole subtree) from the
document. -/
def scrubNodes : List HtmlNode → List HtmlNode
  | [] => []
  | HtmlNode.text s :: rest => HtmlNode.text s :: scrubNodes rest
  | HtmlNode.element tag cs :: rest =>
    if tag = "script" || tag = "style" then scrubNodes rest
    else HtmlNode.element tag (scrubNodes cs) :: scrubNodes rest

/-- Python `str.strip()` with no argument (ASCII whitespace restriction),
used by BeautifulSoup when producing `stripped_strings`. -/
def pyStrip (s : String) : String :=
  String.mk (((s.data.dropWhile isPySpace).reverse.dropWhile isPySpace).reverse)

/-- BeautifulSoup's `stripped_strings`: every text node in document order,
stripped of surrounding whitespace, skipping the ones that strip to empty. -/
def strippedTexts : List HtmlNode → List String
  | [] => []
  | HtmlNode.text s :: rest =>
    if pyStrip s = "" then strippedTexts rest
    else pyStrip s :: strippedTexts rest
  | HtmlNode.element _ cs :: rest => strippedTexts cs ++ strippedTexts rest

/-- The fallback text `' '.join(soup.stripped_strings)` computed after
script/style removal (src/app.py lines 216-224). -/
def fallback_text (doc : List HtmlNode) : String :=
  " ".intercalate (strippedTexts (scrubNodes doc))

/-- JSON value, the result type of `json.loads`. -/
inductive JsonVal where
  | null
  | boolean (b : Bool)
  | num (n : Int)
  | jstr (s : String)
  | arr (elems : List JsonVal)
  | obj (fields : List (String × JsonVal))
deriving Repr

/-- Whether a JSON value has the expected top-level object shape. -/
def isObjShape : JsonVal → Bool
  | .obj _ => true
  | _ => false

/-- External collaborators of `extract_website_info`: `trafilatura.fetch_url`
(`none` = falsy download result), `trafilatura.extract` applied to the
downloaded content, `requests.get` + HTML parsing (`Except.error` = the GET
raised, e.g. a timeout), the OpenAI chat call (`Except.error` = service
failure) returning the raw message content, and `json.loads` (`none` =
`JSONDecodeError`). -/
structure WebEnv where
  fetch_url : String → Option String
  traf_extract : String → Option String
  http_get : String → Except Unit (List HtmlNode)
  chat_completion : String → Except Unit String
  json_loads : String → Option JsonVal

/-- The analysis instruction template (src/app.py lines 233-287), abbreviated
to its content-dependent part: the fixed wording around the page text does
not affect any claim, while the `text_content[:4000]` truncation is kept
faithfully. -/
def analysis_prompt (text_content : String) : String :=
  "Analyze this car dealer website content and extract the information. "
    ++ "Website Content: " ++ text_content.take 4000
    ++ " Format the response as JSON with these exact keys."

/-- The analysis phase of `extract_website_info` (src/app.py lines 289-305):
send the prompt, parse the response body with `json.loads`, return the
parsed value; a service failure or a parse failure raises, is caught by the
function's `try`, and yields `None`.  The parsed value is returned without
any shape validation. -/
def analyze_content (env : WebEnv) (text_content : String) : Option JsonVal :=
  match env.chat_completion (analysis_prompt text_content) with
  | .error _ => none
  | .ok content => env.json_loads content

/-- The fallback branch of `extract_website_info` (src/app.py lines 214-228):
raw GET (a raised exception reaches the outer handler and yields `None`),
script/style stripping, space-joined stripped strings; empty text yields
`None`, otherwise the analysis phase runs on it. -/
def fallbackStep (env : WebEnv) (url : String) : Option JsonVal :=
  match env.http_get url with
  | .error _ => none
  | .ok doc =>
    let t := fallback_text doc
    if t = "" then none else analyze_content env t

/-- Embedding of `extract_website_info` (src/app.py lines 198-312): download
via trafilatura (falsy result returns `None` immediately, without the
fallback), primary readability extraction, fallback GET when the primary
extraction is falsy, then the analysis phase. -/
def extract_website_info (env : WebEnv) (url : String) : Option JsonVal :=
  match env.fetch_url url with
  | none => none
  | some downloaded =>
    if downloaded = "" then none
    else
      match env.traf_extract downloaded with
      | some t => if t = "" then fallbackStep env url else analyze_content env t
      | none => fallbackStep env url

/-- A falsy `trafilatura.extract` result: `None` or the empty string. -/
def trafFalsy (o : Option String) : Prop := o = none ∨ o = some ""

/-! ## Claims C8 and C9 -/

/-- Document used by the C8 counterexample and witness: after script
stripping, its readable text is `"Great cars"`. -/
def siteDoc : List HtmlNode :=
  [HtmlNode.element "html"
    [HtmlNode.element "script" [HtmlNode.text "var x = 1;"],
     HtmlNode.text "  Great cars  "]]

/-- Environment for the C8 counterexample: the trafilatura download fails,
while the raw GET would return `siteDoc` and the analysis pipeline would
succeed on its text. -/
def envC8 : WebEnv :=
  { fetch_url := fun _ => none
    traf_extract := fun _ => none
    http_get := fun _ => Except.ok siteDoc
    chat_completion := fun _ => Except.ok "ok-json"
    json_loads := fun s =>
      if s = "ok-json" then some (JsonVal.obj []) else none }

/-- C8 counterexample: the primary strategy yields no usable text (the
download itself fails) and the fallback GET would yield the usable text
`"Great cars"` leading to a successful analysis, yet `extract_website_info`
returns `none` — the fallback is not performed when the initial download
fails, contradicting the claim's "whenever". -/
theorem c8_counterexample_download_failure_skips_fallback :
    extract_website_info envC8 "http://dealer.example" = none ∧
    envC8.http_get "http://dealer.example" = Except.ok siteDoc ∧
    fallback_text siteDoc = "Great cars" ∧
    analyze_content envC8 "Great cars" = some (JsonVal.obj []) := by
  have h : pyStrip "  Great cars  " = "Great cars" := rfl
  have h2 : " ".intercalate ["Great cars"] = "Great cars" := rfl
  refine ⟨rfl, rfl, ?_, rfl⟩
  simp [siteDoc, fallback_text, scrubNodes, strippedTexts, h, h2]

/-- C8 (amended): the primary readability extraction is tried first (while
it yields usable text the fallback GET is never consulted); when the initial
trafilatura download fails the function returns `none` without attempting
the fallback; when the download succeeds but the primary extraction yields
no usable text, the fallback GET runs, its text is the script/style-stripped
space-joined node text, empty fallback text yields `none`, and a raised
fallback GET also yields `none` — never an uncaught exception. -/
theorem c8_fallback_content_extraction :
    (∀ (env : WebEnv) (url : String),
      env.fetch_url url = none → extract_website_info env url = none) ∧
    (∀ (env : WebEnv) (g : String → Except Unit (List HtmlNode))
      (url downloaded t : String),
      env.fetch_url url = some downloaded → downloaded ≠ "" →
      env.traf_extract downloaded = some t → t ≠ "" →
      extract_website_info { env with http_get := g } url =
        extract_website_info env url) ∧
    (∀ (env : WebEnv) (url downloaded : String) (doc : List HtmlNode),
      env.fetch_url url = some downloaded → downloaded ≠ "" →
      trafFalsy (env.traf_extract downloaded) →
      env.http_get url = Except.ok doc →
      extract_website_info env url =
        (if fallback_text doc = "" then none
         else analyze_content env (fallback_text doc))) ∧
    (∀ (env : WebEnv) (url downloaded : String),
      env.fetch_url url = some downloaded → downloaded ≠ "" →
      trafFalsy (env.traf_extract downloaded) →
      env.http_get url = Except.error () →
      extract_website_info env url = none) := by
  refine ⟨?_, ?_, ?_, ?_⟩
  · intro env url h
    simp [extract_website_info, h]
  · intro env g url downloaded t hf hne ht htne
    simp [extract_website_info, hf, hne, ht, htne, analyze_content]
  · intro env url downloaded doc hf hne htraf hget
    rcases htraf with h0 | h0 <;>
      simp [extract_website_info, hf, hne, h0, fallbackStep, hget]
  · intro env url downloaded hf hne htraf hget
    rcases htraf with h0 | h0 <;>
      simp [extract_website_info, hf, hne, h0, fallbackStep, hget]

/-- Environment for the C8 witness: download succeeds, primary extraction
yields nothing, the fallback GET returns `siteDoc`. -/
def envC8w : WebEnv :=
  { fetch_url := fun _ => some "page"
    traf_extract := fun _ => none
    http_get := fun _ => Except.ok siteDoc
    chat_completion := fun _ => Except.ok "ok-json"
    json_loads := fun s =>
      if s = "ok-json" then some (JsonVal.obj []) else none }

/-- C8 witness: the fallback clause instantiated at a concrete environment
whose primary extraction is falsy. -/
theorem c8_witness_concrete :
    extract_website_info envC8w "http://dealer.example" =
      (if fallback_text siteDoc = "" then none
       else analyze_content envC8w (fallback_text siteDoc)) :=
  c8_fallback_content_extraction.2.2.1 envC8w "http://dealer.example" "page"
    siteDoc rfl (by simp) (Or.inl rfl) rfl

/-- Environment for the C9 counterexample: the text-generation service
responds with `"[1, 2]"`, valid JSON that is not an object. -/
def envC9 : WebEnv :=
  { fetch_url := fun _ => some "page"
    traf_extract := fun _ => some "Nice inventory"
    http_get := fun _ => Except.error ()
    chat_completion := fun _ => Except.ok "[1, 2]"
    json_loads := fun s =>
      if s = "[1, 2]" then some (JsonVal.arr [JsonVal.num 1, JsonVal.num 2])
      else none }

/-- C9 counterexample: a response body that is valid JSON but not of the
expected top-level object shape is returned as a successful analysis value,
not as the failure result — `json.loads` output is never shape-checked. -/
theorem c9_counterexample_wrong_shape_is_success :
    extract_website_info envC9 "http://dealer.example" =
      some (JsonVal.arr [JsonVal.num 1, JsonVal.num 2]) ∧
    isObjShape (JsonVal.arr [JsonVal.num 1, JsonVal.num 2]) = false ∧
    extract_website_info envC9 "http://dealer.example" ≠ none := by
  have h1 : extract_website_info envC9 "http://dealer.example" =
      some (JsonVal.arr [JsonVal.num 1, JsonVal.num 2]) := rfl
  exact ⟨h1, rfl, by rw [h1]; simp⟩

/-- C9 (amended): a service failure or a response body that is not valid
JSON makes the analysis phase yield the failure result `none` (the raised
exception is caught; nothing escapes), and the caller then renders the
dealer without an analysis; a body that parses as JSON is returned as the
analysis without top-level shape validation. -/
theorem c9_malformed_response_yields_none :
    (∀ (env : WebEnv) (t : String),
      env.chat_completion (analysis_prompt t) = Except.error () →
      analyze_content env t = none) ∧
    (∀ (env : WebEnv) (t content : String),
      env.chat_completion (analysis_prompt t) = Except.ok content →
      env.json_loads content = none → analyze_content env t = none) ∧
    (∀ (env : WebEnv) (t content : String) (j : JsonVal),
      env.chat_completion (analysis_prompt t) = Except.ok content →
      env.json_loads content = some j → analyze_content env t = some j) ∧
    (∀ (env : WebEnv) (url downloaded t : String),
      env.fetch_url url = some downloaded → downloaded ≠ "" →
      env.traf_extract downloaded = some t → t ≠ "" →
      extract_website_info env url = analyze_content env t) := by
  refine ⟨?_, ?_, ?_, ?_⟩
  · intro env t h
    simp [analyze_content, h]
  · intro env t content h1 h2
    simp [analyze_content, h1, h2]
  · intro env t content j h1 h2
    simp [analyze_content, h1, h2]
  · intro env url downloaded t hf hne ht htne
    simp [extract_website_info, hf, hne, ht, htne]

/-- Environment for the C9 witness: the service responds with a body that
`json.loads` rejects. -/
def envC9w : WebEnv :=
  { fetch_url := fun _ => some "page"
    traf_extract := fun _ => some "Nice inventory"
    http_get := fun _ => Except.error ()
    chat_completion := fun _ => Except.ok "this is not json"
    json_loads := fun _ => none }

/-- C9 witness: the malformed-response clause instantiated at a concrete
environment. -/
theorem c9_witness_concrete :
    analyze_content envC9w "Nice inventory" = none :=
  c9_malformed_response_yields_none.2.1 envC9w "Nice inventory"
    "this is not json" rfl rfl

end DealerFinder
